import Mathlib

/-!
Shallow embedding of the opencopilot agent (src/agent.go, src/main.go):
the reconciliation engine (`ensureServices`), the actual-set computation
(`getLocalServices`), the service lifecycle operations (`startService`,
`stopService`), the configurator (`configureService`) and the top-level
`ConfigHandler`, together with proofs about them.

External collaborators (the Docker runtime, the Consul store, the
consul-kv-json decoder and the gRPC transport) are modelled at their
interface: listings the runtime returns are passed in as explicit
parameters, and per-call outcomes of external operations are supplied by
explicit oracle functions, so every definition is executable.
-/

namespace OcopiAgent

/-- `type Service string` (agent.go line 25): a logical service name. -/
abbrev Service := String

/-- `type Services []Service` (agent.go line 28). -/
abbrev Services := List Service

/-- A published-port mapping of a container, as reported by the runtime
(`container.Ports` entries with `PrivatePort`/`PublicPort`). -/
structure PortMapping where
  privatePort : Nat
  publicPort : Nat
deriving DecidableEq, Repr

/-- A container record as returned by the runtime's `ContainerList`:
identifier, image reference, label set and published ports.  Labels are an
association list (Docker's `map[string]string`; keys unique, first binding
wins on lookup). -/
structure ContainerRec where
  id : String
  image : String
  labels : List (String × String)
  ports : List PortMapping
deriving DecidableEq, Repr

/-- Lookup of a label value on a container (`container.Labels[k]`). -/
def labelValue (c : ContainerRec) (k : String) : Option String :=
  (c.labels.find? (fun p => p.1 == k)).map Prod.snd

/-- Whether a container carries the managed-label, i.e. whether Docker's
`label=com.opencopilot.managed` filter retains it (agent.go lines 96-98). -/
def hasManagedLabel (c : ContainerRec) : Bool :=
  (labelValue c "com.opencopilot.managed").isSome

/-- `getLocalServices` (agent.go lines 90-117): list containers filtered by
the managed-label (the runtime applies the filter), then keep the value of
the `com.opencopilot.service-manager` label for each container that has
one, skipping containers where the label is absent.  The runtime's listing
is passed in as `containers`. -/
def getLocalServices (containers : List ContainerRec) : Services :=
  (containers.filter hasManagedLabel).filterMap
    (fun c => labelValue c "com.opencopilot.service-manager")

/-- One reconciliation action recorded by the handler: a `startService`
call, a `stopService` call, or a `configureService` call. -/
inductive HAction where
  | start (s : Service)
  | stop (s : Service)
  | configure (s : Service)
deriving DecidableEq, Repr

/-- The inner comparison loop of `ensureServices` (agent.go lines 128-133
and 150-154): a flag starting `false`, set to `true` whenever the scanned
element equals `s`; the loop always runs over the whole list. -/
def existsIn (s : Service) (l : Services) : Bool :=
  l.foldl (fun acc x => if s = x then true else acc) false

/-- The first loop of `ensureServices` (agent.go lines 125-145): for each
incoming service, scan all local services; if it was found locally the Go
code executes `break`, leaving the whole loop (line 137), otherwise it
calls `startService` and continues. -/
def startPhase : Services → Services → List HAction
  | [], _ => []
  | i :: rest, localServices =>
    if existsIn i localServices then []
    else HAction.start i :: startPhase rest localServices

/-- The second loop of `ensureServices` (agent.go lines 147-167): for each
local service, scan all incoming services; if it was found incoming the Go
code executes `break`, leaving the whole loop (line 158), otherwise it
calls `stopService` and continues. -/
def stopPhase : Services → Services → List HAction
  | [], _ => []
  | l :: rest, incomingServices =>
    if existsIn l incomingServices then []
    else HAction.stop l :: stopPhase rest incomingServices

/-- `ensureServices` (agent.go lines 119-168): obtain the actual set via
`getLocalServices` from the runtime listing `containers`, then run the two
diff loops.  The returned list is the sequence of start/stop actions
issued (start/stop failures are only logged, so they do not alter the
sequence). -/
def ensureServices (incomingServices : Services) (containers : List ContainerRec) :
    List HAction :=
  let localServices := getLocalServices containers
  startPhase incomingServices localServices ++ stopPhase localServices incomingServices

/-- The `container.Config` passed to `ContainerCreate` (agent.go lines
180-189 and 204): image, labels and environment. -/
structure ContainerConfig where
  image : String
  labels : List (String × String)
  env : List String
deriving DecidableEq, Repr

/-- The `container.HostConfig` passed to `ContainerCreate` (agent.go lines
206-214). -/
structure HostConfig where
  autoRemove : Bool
  privileged : Bool
  binds : List String
  publishAllPorts : Bool
deriving DecidableEq, Repr

/-- A Docker runtime operation issued by the lifecycle manager. -/
inductive DockerOp where
  | imagePull (image : String)
  | containerCreate (cfg : ContainerConfig) (host : HostConfig) (name : String)
  | containerStart (name : String)
  | containerStop (id : String)
deriving DecidableEq, Repr

/-- `startService` (agent.go lines 170-225).  The `switch` on the service
name happens before any runtime interaction: an unknown name returns the
error `Invalid service specified` with no Docker operation issued.  For
the one registered name, `LB`, the success-path trace is pull, create,
start; a runtime failure in the source truncates this trace and returns
the runtime's error, which does not affect the issued specifications.  The
source starts the container by the runtime-assigned identifier of the
container it just created, which the deterministic name identifies here.
`configDir` and `instanceID` are the process-wide `ConfigDir` and
`InstanceID` values. -/
def startService (configDir instanceID : String) (service : Service) :
    List DockerOp × Option String :=
  if service = "LB" then
    let containerConfig : ContainerConfig :=
      { image := "quay.io/opencopilot/haproxy-manager"
        labels := [("com.opencopilot.managed", ""),
                   ("com.opencopilot.service-manager", service)]
        env := ["CONFIG_DIR=" ++ configDir, "INSTANCE_ID=" ++ instanceID] }
    let hostConfig : HostConfig :=
      { autoRemove := true
        privileged := true
        binds := ["/var/run/docker.sock:/var/run/docker.sock",
                  configDir ++ ":" ++ configDir]
        publishAllPorts := true }
    ([DockerOp.imagePull containerConfig.image,
      DockerOp.containerCreate containerConfig hostConfig
        ("com.opencopilot.service-manager." ++ service),
      DockerOp.containerStart ("com.opencopilot.service-manager." ++ service)],
     none)
  else ([], some "Invalid service specified")

/-- `stopService` (agent.go lines 227-250), given a successful listing.
`matching` is the runtime's answer to the filter (managed-label plus the
name `com.opencopilot.service-manager.<service>`); `stopOutcome` gives the
error, if any, that `ContainerStop` produces for a container identifier.
The source calls `ContainerStop` for each found container and ignores its
returned value (line 246), then returns `nil`. -/
def stopService (matching : List ContainerRec) (stopOutcome : String → Option String) :
    List DockerOp × Option String :=
  match matching with
  | [] => ([], none)
  | c :: rest =>
    let _ := stopOutcome c.id
    let r := stopService rest stopOutcome
    (DockerOp.containerStop c.id :: r.1, r.2)

/-!  The config-tree decoder.  The flattening utility
(`consulkvjson.ConsulKVsToJSON`) and the JSON path lookup
(`jsonparser.Get`) live outside this repository; they are modelled at the
interface the spec gives them: `/`-delimited keys reconstruct a nested
document, and a path lookup finds the node the path's segments lead to. -/

/-- Modelled from the spec: the nested JSON-like document the Config Tree
Decoder reconstructs — a tree whose leaves are the stored string values
and whose inner nodes are objects (ordered field lists, keys unique). -/
inductive JsonVal where
  | str (s : String)
  | obj (fields : List (String × JsonVal))

/-- Field lookup in an object's field list. -/
def lookupField (fields : List (String × JsonVal)) (k : String) : Option JsonVal :=
  (fields.find? (fun p => p.1 == k)).map Prod.snd

/-- Replace the binding of a key in an object's field list. -/
def setField : List (String × JsonVal) → String → JsonVal → List (String × JsonVal)
  | [], k, v => [(k, v)]
  | (k', v') :: rest, k, v =>
    if k' == k then (k, v) :: rest else (k', v') :: setField rest k v

/-- Modelled from the spec: insertion of one flat key (already split into
its `/`-delimited segments) with its value into the nested document. -/
def insertPath (j : JsonVal) (path : List String) (v : String) : JsonVal :=
  match path with
  | [] => .str v
  | seg :: rest =>
    match j with
    | .str _ => .obj [(seg, insertPath (.obj []) rest v)]
    | .obj fields =>
      match lookupField fields seg with
      | some child => .obj (setField fields seg (insertPath child rest v))
      | none => .obj (fields ++ [(seg, insertPath (.obj []) rest v)])

/-- One key-value pair of a store listing; the key is represented by its
list of `/`-delimited path segments. -/
structure KVPair where
  key : List String
  value : String

/-- Modelled from the spec: `consulkvjson.ConsulKVsToJSON` — fold the flat
listing into a nested document. -/
def consulKVsToJSON (kvs : List KVPair) : JsonVal :=
  kvs.foldl (fun acc kv => insertPath acc kv.key kv.value) (.obj [])

/-- Modelled from the spec: the path lookup performed by
`jsonparser.Get(jsonString, "instances", InstanceID, "services")` — walk
the document along the path; `none` is `jsonparser.NotExist`. -/
def getNode (j : JsonVal) (path : List String) : Option JsonVal :=
  match path with
  | [] => some j
  | seg :: rest =>
    match j with
    | .str _ => none
    | .obj fields =>
      match lookupField fields seg with
      | some child => getNode child rest
      | none => none

/-- The path `instances/<InstanceID>/services` interrogated by
`ConfigHandler` (agent.go line 62). -/
def servicesPath (instanceID : String) : List String :=
  ["instances", instanceID, "services"]

/-!  The configurator. -/

/-- The control-port computation of `configureService` (agent.go lines
279-284): scan the container's published ports, remembering the public
port of every pair whose private port is 50052; the variable starts at
Go's zero value 0 and the last matching pair wins. -/
def grpcPortOf (ports : List PortMapping) : Nat :=
  ports.foldl (fun acc p => if p.privatePort = 50052 then p.publicPort else acc) 0

/-- The config sub-document `configureService` fetches for a service
(agent.go lines 286-306): a fresh point-in-time store listing decoded and
looked up at `instances/<InstanceID>/services/<service>`; `none` is the
`NotExist` case, which the source only logs (line 305) before proceeding. -/
def serviceConfigOf (instanceID : String) (service : Service) (storeKvs : List KVPair) :
    Option JsonVal :=
  getNode (consulKVsToJSON storeKvs) (servicesPath instanceID ++ [service])

/-- The configure RPC issued for one container: a `Configure` call dialled
to `localhost:<port>` carrying the fetched config sub-document. -/
structure ConfAction where
  port : Nat
  payload : Option JsonVal

/-- `configureService` (agent.go lines 252-322), given a successful
container listing.  `matching` is the runtime's answer to the filter
(managed-label plus the name `com.opencopilot.service-manager.<service>`);
`storeKvs` is the store's listing under the service's config path (the
source re-reads it per container; the store is a fixed parameter here);
`rpcOutcome` gives the error, if any, the `Configure` call returns for a
port.  For every container in the list — whether or not any port pair
matched 50052 — the source dials `localhost:<gRPCPort>` and issues the
RPC; an RPC error is returned at once, skipping the remaining containers. -/
def configureService (instanceID : String) (service : Service)
    (storeKvs : List KVPair) (matching : List ContainerRec)
    (rpcOutcome : Nat → Option String) : List ConfAction × Option String :=
  match matching with
  | [] => ([], none)
  | c :: rest =>
    let port := grpcPortOf c.ports
    let act : ConfAction := ⟨port, serviceConfigOf instanceID service storeKvs⟩
    match rpcOutcome port with
    | some e => ([act], some e)
    | none =>
      let r := configureService instanceID service storeKvs rest rpcOutcome
      (act :: r.1, r.2)

/-- `ConfigHandler` (agent.go lines 51-88).  Inputs: the watched listing
`kvs`, the runtime listing `containersBefore` seen by `ensureServices`,
and the runtime listing `containersAfter` returned by the re-list after
reconciliation (a fresh runtime query in the source).  Output: `none` for
the run-time panic the source's type assertion raises when the node at
`instances/<id>/services` is a leaf value, otherwise the recorded action
trace paired with the final value of the process-wide `HandlingServices`
flag: the flag is set `true` on entry (line 52); on the `NotExist` path
the source reconciles against the empty set and returns at once (lines
63-66) — no re-list, no configure, and the flag is never reset; otherwise
the desired names are the keys of the services object (Go map iteration
order is unspecified; the field order stands in for it here), and after
reconciliation each re-listed local service is configured and the flag is
reset (line 87). -/
def ConfigHandler (instanceID : String) (kvs : List KVPair)
    (containersBefore containersAfter : List ContainerRec) :
    Option (List HAction × Bool) :=
  match getNode (consulKVsToJSON kvs) (servicesPath instanceID) with
  | none => some (ensureServices [] containersBefore, true)
  | some (.str _) => none
  | some (.obj fields) =>
    let incomingServices := fields.map Prod.fst
    some (ensureServices incomingServices containersBefore
            ++ (getLocalServices containersAfter).map HAction.configure,
          false)

/-!  Concrete sample data used to instantiate the theorems. -/

/-- A managed `LB` service-manager container, labelled the way
`startService` labels the containers it creates. -/
def lbContainer : ContainerRec :=
  { id := "c0"
    image := "quay.io/opencopilot/haproxy-manager"
    labels := [("com.opencopilot.managed", ""),
               ("com.opencopilot.service-manager", "LB")]
    ports := [] }

/-- A store listing declaring the single service `LB` for instance `i`. -/
def sampleKvs : List KVPair :=
  [⟨["instances", "i", "services", "LB"], "cfg"⟩]

/-!  Bridging lemmas. -/

/-- The comparison loop's flag, folded from any initial value, ends `true`
exactly when it started `true` or the sought element occurs in the list. -/
theorem foldl_flag_eq_true (s : Service) :
    ∀ (l : Services) (acc : Bool),
      l.foldl (fun a x => if s = x then true else a) acc = true ↔
        (acc = true ∨ s ∈ l) := by
  intro l
  induction l with
  | nil => intro acc; simp
  | cons x xs ih =>
    intro acc
    simp only [List.foldl_cons]
    rw [ih]
    by_cases h : s = x <;> simp [h, List.mem_cons]

/-- The inner loop of `ensureServices` computes list membership. -/
theorem existsIn_iff_mem (s : Service) (l : Services) :
    existsIn s l = true ↔ s ∈ l := by
  unfold existsIn
  rw [foldl_flag_eq_true]
  simp

/-- With an empty incoming set the stop loop never breaks: every local
service is stopped, in listing order. -/
theorem stopPhase_nil_incoming (localServices : Services) :
    stopPhase localServices [] = localServices.map HAction.stop := by
  induction localServices with
  | nil => rfl
  | cons l rest ih => simp [stopPhase, existsIn, ih]

/-- Reconciling against an empty incoming set stops every local service. -/
theorem ensureServices_empty_incoming (containers : List ContainerRec) :
    ensureServices [] containers = (getLocalServices containers).map HAction.stop := by
  simp [ensureServices, startPhase, stopPhase_nil_incoming]

/-- Every action of the start loop is a start action. -/
theorem mem_startPhase_is_start (incomingServices localServices : Services) :
    ∀ a ∈ startPhase incomingServices localServices, ∃ t, a = HAction.start t := by
  induction incomingServices with
  | nil => simp [startPhase]
  | cons i rest ih =>
    intro a ha
    by_cases h : existsIn i localServices = true
    · simp [startPhase, h] at ha
    · simp only [startPhase, if_neg h, List.mem_cons] at ha
      rcases ha with rfl | ha
      · exact ⟨i, rfl⟩
      · exact ih a ha

/-- Every service the stop loop stops is one of the local services. -/
theorem mem_stopPhase_mem_local (localServices incomingServices : Services)
    (s : Service) (h : HAction.stop s ∈ stopPhase localServices incomingServices) :
    s ∈ localServices := by
  induction localServices with
  | nil => simp [stopPhase] at h
  | cons l rest ih =>
    by_cases hl : existsIn l incomingServices = true
    · simp [stopPhase, hl] at h
    · simp only [stopPhase, if_neg hl, List.mem_cons, HAction.stop.injEq] at h
      rcases h with rfl | h
      · exact List.mem_cons_self _ rest
      · exact List.mem_cons_of_mem l (ih h)

/-- Every service in the actual set is the service-manager label value of
a container of the listing that carries the managed-label. -/
theorem mem_getLocalServices_witnessed (containers : List ContainerRec) (s : Service)
    (h : s ∈ getLocalServices containers) :
    containers.any (fun c =>
      hasManagedLabel c &&
        (labelValue c "com.opencopilot.service-manager" == some s)) = true := by
  unfold getLocalServices at h
  obtain ⟨c, hc, hlab⟩ := List.mem_filterMap.mp h
  obtain ⟨hcc, hm⟩ := List.mem_filter.mp hc
  refine List.any_eq_true.mpr ⟨c, hcc, ?_⟩
  rw [hm, hlab]
  simp

/-- The port fold keeps its accumulator when no pair matches 50052. -/
theorem foldl_port_no_match (ports : List PortMapping)
    (h : ∀ p ∈ ports, p.privatePort ≠ 50052) :
    ∀ acc : Nat,
      ports.foldl (fun acc p => if p.privatePort = 50052 then p.publicPort else acc) acc
        = acc := by
  induction ports with
  | nil => intro acc; rfl
  | cons p rest ih =>
    intro acc
    have hp : p.privatePort ≠ 50052 := h p (List.mem_cons_self p rest)
    simp only [List.foldl_cons, if_neg hp]
    exact ih (fun q hq => h q (List.mem_cons_of_mem p hq)) acc

/-- A container with no 50052 mapping gets the Go zero-value port 0. -/
theorem grpcPortOf_eq_zero (ports : List PortMapping)
    (h : ∀ p ∈ ports, p.privatePort ≠ 50052) : grpcPortOf ports = 0 :=
  foldl_port_no_match ports h 0

/-!  Claim theorems. -/

/-- Claim C1: a single reconciliation pass does NOT start every service of
D∖A once and stop every service of A∖D once.  At desired `["LB", "X"]`
against an actual set `["LB"]` the pass issues no action at all: the
source's `break` leaves the whole start loop as soon as one incoming
service is found to exist locally, so `"X"` is never started. -/
theorem ensureServices_break_bug :
    getLocalServices [lbContainer] = ["LB"] ∧
    ensureServices ["LB", "X"] [lbContainer] = [] :=
  ⟨rfl, rfl⟩

/-- Claim C2: reconciling an already-converged state — the incoming set
and the actual set computed from the runtime listing have the same
members — issues zero start and zero stop actions (so a second pass over
the unchanged state issues none either). -/
theorem ensureServices_idempotent (incomingServices : Services)
    (containers : List ContainerRec)
    (h : ∀ s, s ∈ incomingServices ↔ s ∈ getLocalServices containers) :
    ensureServices incomingServices containers = [] := by
  simp only [ensureServices]
  cases hinc : incomingServices with
  | nil =>
    cases hloc : getLocalServices containers with
    | nil => rfl
    | cons l lrest =>
      have : l ∈ incomingServices := (h l).mpr (by rw [hloc]; exact List.mem_cons_self l lrest)
      rw [hinc] at this
      exact absurd this (List.not_mem_nil l)
  | cons i irest =>
    have hi : i ∈ getLocalServices containers :=
      (h i).mp (by rw [hinc]; exact List.mem_cons_self i irest)
    cases hloc : getLocalServices containers with
    | nil => rw [hloc] at hi; exact absurd hi (List.not_mem_nil i)
    | cons l lrest =>
      have hl : l ∈ incomingServices :=
        (h l).mpr (by rw [hloc]; exact List.mem_cons_self l lrest)
      rw [hloc] at hi
      rw [hinc] at hl
      simp [startPhase, stopPhase, (existsIn_iff_mem _ _).mpr hi,
        (existsIn_iff_mem _ _).mpr hl]

/-- Witness for C2 at a converged concrete state. -/
theorem ensureServices_idempotent_witness :
    ensureServices ["LB"] [lbContainer] = [] :=
  ensureServices_idempotent ["LB"] [lbContainer] (fun _ => Iff.rfl)

/-- Claim C3: when the decoded listing has no node at
`instances/<id>/services`, the handler treats it as an empty desired set
(no error: it returns a value) and the reconciliation stops every service
of the actual set, in listing order. -/
theorem configHandler_missing_subtree (instanceID : String) (kvs : List KVPair)
    (containersBefore containersAfter : List ContainerRec)
    (h : getNode (consulKVsToJSON kvs) (servicesPath instanceID) = none) :
    ConfigHandler instanceID kvs containersBefore containersAfter
      = some ((getLocalServices containersBefore).map HAction.stop, true) := by
  simp [ConfigHandler, h, ensureServices_empty_incoming]

/-- Witness for C3: an empty listing stops the one managed container. -/
theorem configHandler_missing_subtree_witness :
    ConfigHandler "i" [] [lbContainer] [] = some ([HAction.stop "LB"], true) :=
  configHandler_missing_subtree "i" [] [lbContainer] [] rfl

/-- Claim C4: a service name belongs to the actual set, or is stopped by a
reconciliation pass, only if some container of the runtime listing carries
both the managed-label and the service-manager label with that name —
containers without the managed-label (or without the service-manager
label) are never counted as actual and never stopped. -/
theorem getLocalServices_ignores_noise (containers : List ContainerRec)
    (incomingServices : Services) (s : Service)
    (h : s ∈ getLocalServices containers ∨
         HAction.stop s ∈ ensureServices incomingServices containers) :
    containers.any (fun c =>
      hasManagedLabel c &&
        (labelValue c "com.opencopilot.service-manager" == some s)) = true := by
  rcases h with h | h
  · exact mem_getLocalServices_witnessed containers s h
  · apply mem_getLocalServices_witnessed containers s
    simp only [ensureServices] at h
    rcases List.mem_append.mp h with h1 | h2
    · obtain ⟨t, ht⟩ := mem_startPhase_is_start _ _ _ h1
      exact absurd ht (by simp)
    · exact mem_stopPhase_mem_local _ _ _ h2

/-- Witness for C4 at a concrete listing. -/
theorem getLocalServices_ignores_noise_witness :
    [lbContainer].any (fun c =>
      hasManagedLabel c &&
        (labelValue c "com.opencopilot.service-manager" == some "LB")) = true :=
  getLocalServices_ignores_noise [lbContainer] [] "LB" (Or.inl (by decide))

/-- Claim C5: a start attempt for any name other than `LB` — the only
entry of the static registry — returns the `Invalid service specified`
error having issued no Docker operation (no pull, no create, no start). -/
theorem startService_unknown_name (configDir instanceID : String) (service : Service)
    (h : service ≠ "LB") :
    startService configDir instanceID service
      = ([], some "Invalid service specified") := by
  simp [startService, h]

/-- Witness for C5 at a concrete unknown name. -/
theorem startService_unknown_name_witness :
    startService "/etc/opencopilot" "i" "FW" = ([], some "Invalid service specified") :=
  startService_unknown_name "/etc/opencopilot" "i" "FW" (by decide)

/-- Claim C6: with desired `["LB"]` and an empty runtime listing the pass
issues exactly one start of `LB`, and the start's Docker trace is pull,
create, start, where the created container carries the managed-label and
the service-manager label `LB`, the environment `CONFIG_DIR=<dir>` and
`INSTANCE_ID=<id>`, auto-remove, privilege, publish-all-ports, and the
deterministic name `com.opencopilot.service-manager.LB`. -/
theorem ensureServices_start_lb_scenario (configDir instanceID : String) :
    ensureServices ["LB"] [] = [HAction.start "LB"] ∧
    startService configDir instanceID "LB" =
      ([DockerOp.imagePull "quay.io/opencopilot/haproxy-manager",
        DockerOp.containerCreate
          { image := "quay.io/opencopilot/haproxy-manager"
            labels := [("com.opencopilot.managed", ""),
                       ("com.opencopilot.service-manager", "LB")]
            env := ["CONFIG_DIR=" ++ configDir, "INSTANCE_ID=" ++ instanceID] }
          { autoRemove := true
            privileged := true
            binds := ["/var/run/docker.sock:/var/run/docker.sock",
                      configDir ++ ":" ++ configDir]
            publishAllPorts := true }
          "com.opencopilot.service-manager.LB",
        DockerOp.containerStart "com.opencopilot.service-manager.LB"],
       none) :=
  ⟨rfl, rfl⟩

/-- Claim C7 counterexample: for a managed container whose port list has
no mapping for internal port 50052 (here: no ports at all), the
configurator does NOT skip the container — it issues exactly one configure
RPC, dialled to port 0 (the Go zero value of `gRPCPort`). -/
theorem configureService_no_port_not_skipped :
    lbContainer.ports = [] ∧
    configureService "i" "LB" [] [lbContainer] (fun _ => none)
      = ([⟨0, none⟩], none) :=
  ⟨rfl, rfl⟩

/-- Claim C7 amended: for every container with no 50052 mapping the
configurator still attempts the configure RPC, against port 0, carrying
the fetched config sub-document; any error of that attempt is the RPC's. -/
theorem configureService_no_port_dials_zero (instanceID : String) (service : Service)
    (storeKvs : List KVPair) (c : ContainerRec) (rpcOutcome : Nat → Option String)
    (h : ∀ p ∈ c.ports, p.privatePort ≠ 50052) :
    (configureService instanceID service storeKvs [c] rpcOutcome).1
      = [⟨0, serviceConfigOf instanceID service storeKvs⟩] := by
  simp only [configureService, grpcPortOf_eq_zero c.ports h]
  cases rpcOutcome 0 <;> simp [configureService]

/-- Witness for the amended C7 at a concrete portless container. -/
theorem configureService_no_port_dials_zero_witness :
    (configureService "i" "LB" [] [lbContainer] (fun _ => none)).1 = [⟨0, none⟩] :=
  configureService_no_port_dials_zero "i" "LB" [] lbContainer (fun _ => none) (by decide)

/-- Claim C8 counterexample: on an absent services subtree the handler
returns at once — no configure action is issued even though the
post-reconciliation listing would name `LB`. -/
theorem configHandler_absent_skips_configure :
    getLocalServices [lbContainer] = ["LB"] ∧
    ConfigHandler "i" [] [] [lbContainer] = some ([], true) :=
  ⟨rfl, rfl⟩

/-- Claim C8 amended: whenever the services subtree decodes to an object —
in particular when desired equals actual and no start/stop is issued — the
handler ends by re-listing the local services and appending one configure
action per post-reconciliation local service; on the absent-subtree path
it instead returns right after reconciliation, configuring nothing. -/
theorem configHandler_configures_when_present (instanceID : String) (kvs : List KVPair)
    (containersBefore containersAfter : List ContainerRec)
    (fields : List (String × JsonVal))
    (h : getNode (consulKVsToJSON kvs) (servicesPath instanceID)
          = some (JsonVal.obj fields)) :
    ConfigHandler instanceID kvs containersBefore containersAfter
      = some (ensureServices (fields.map Prod.fst) containersBefore
                ++ (getLocalServices containersAfter).map HAction.configure,
              false) := by
  simp [ConfigHandler, h]

/-- Witness for the amended C8: converged state, zero start/stop actions,
one configure action for `LB`. -/
theorem configHandler_configures_when_present_witness :
    ConfigHandler "i" sampleKvs [lbContainer] [lbContainer]
      = some ([HAction.configure "LB"], false) :=
  configHandler_configures_when_present "i" sampleKvs [lbContainer] [lbContainer]
    [("LB", JsonVal.str "cfg")] rfl

/-- Claim C9: on the absent-subtree path the handler returns with the
process-wide `HandlingServices` flag still `true` — the source's early
`return` skips the reset at the end of the handler. -/
theorem configHandler_flag_left_true :
    ConfigHandler "i" [] [] [] = some ([], true) :=
  rfl

/-- Claim C10: whenever the container listing succeeds, `stopService`
returns no error — it stops each found container, discarding the per-stop
outcome the runtime reports, and with no match it does nothing — so the
result is `none` regardless of `stopOutcome`. -/
theorem stopService_never_errors (matching : List ContainerRec)
    (stopOutcome : String → Option String) :
    stopService matching stopOutcome
      = (matching.map (fun c => DockerOp.containerStop c.id), none) := by
  induction matching with
  | nil => rfl
  | cons c rest ih => simp [stopService, ih]

end OcopiAgent
